import Mathlib

/-!
Verification of the triumph-project best-execution service.

The embedding models, from the Go sources:
* `services/order/order.go` — `OrderService.Buy` and `OrderService.Sell`:
  a scan over the configured exchanges keeping the best ask (buy, minimum,
  sentinel `1e18`) or best bid (sell, maximum, sentinel `0`), accumulating
  the names of all exchanges tied at the current best price, and failing
  with `failed to find best price for <symbol>` when the best price is
  still the sentinel after the scan.
* `controllers/orders/orders.go` — `BuyHandler` and `SellHandler`:
  parse the `amount` query parameter with a default of `0`, reject the
  request when the parsed amount equals `0`, otherwise call the service
  and render either the error or the result.
* `services/exchange/exchange.go` — the tail of `KrakenExchange.GetPrices`
  after the JSON response has been decoded: the application-level error
  check and the loop over the `result` map that extracts and parses the
  top-of-book entries.

Prices are modelled as rationals; the comparisons and multiplications the
service performs are exact on the values involved, so `ℚ` is a faithful
carrier for the ordering and tie-equality behaviour of the `float64`
code paths.
-/

namespace Triumph

/-- One configured exchange as the order service sees it: a stable name
(`GetName`) and the outcome of `GetPrices` for the request being modelled.
`some (ask, bid)` is a successful fetch returning that price pair; `none`
models `GetPrices` returning a non-nil error. -/
structure Adapter where
  name : String
  fetch : Option (ℚ × ℚ)
deriving DecidableEq

/-- The `1e18` sentinel `Buy` starts from (`bestPrice := 1e18`). -/
def buySentinel : ℚ := 10 ^ 18

/-- The loop body of `OrderService.Buy`: skip failed exchanges; on an ask
strictly below the running best, replace the best and reset the winner
list to this exchange; on an ask equal to the running best, append this
exchange; otherwise ignore. -/
def buyLoop : List Adapter → ℚ → List String → ℚ × List String
  | [], best, ws => (best, ws)
  | a :: rest, best, ws =>
    match a.fetch with
    | none => buyLoop rest best ws
    | some pr =>
      if pr.1 < best then buyLoop rest pr.1 [a.name]
      else if pr.1 = best then buyLoop rest best (ws ++ [a.name])
      else buyLoop rest best ws

/-- `OrderService.Buy`: scan the exchanges from the `1e18` sentinel; if the
best price is still the sentinel afterwards return `(0, nil, error)`,
otherwise return `(amount * bestPrice, bestExchanges, nil)`. The Go
`error` is modelled as `Option String` (`none` = nil error). -/
def Buy (ads : List Adapter) (amount : ℚ) (symbol : String) :
    ℚ × List String × Option String :=
  let r := buyLoop ads buySentinel []
  if r.1 = buySentinel then
    (0, [], some ("failed to find best price for " ++ symbol))
  else
    (amount * r.1, r.2, none)

/-- The loop body of `OrderService.Sell`: the mirror of `buyLoop` on the
bid side, keeping the maximum from the `0` sentinel. -/
def sellLoop : List Adapter → ℚ → List String → ℚ × List String
  | [], best, ws => (best, ws)
  | a :: rest, best, ws =>
    match a.fetch with
    | none => sellLoop rest best ws
    | some pr =>
      if pr.2 > best then sellLoop rest pr.2 [a.name]
      else if pr.2 = best then sellLoop rest best (ws ++ [a.name])
      else sellLoop rest best ws

/-- `OrderService.Sell`: scan the exchanges from the `0` sentinel; if the
best price is still `0` afterwards return `(0, nil, error)`, otherwise
return `(amount * bestPrice, bestExchanges, nil)`. -/
def Sell (ads : List Adapter) (amount : ℚ) (symbol : String) :
    ℚ × List String × Option String :=
  let r := sellLoop ads 0 []
  if r.1 = 0 then
    (0, [], some ("failed to find best price for " ++ symbol))
  else
    (amount * r.1, r.2, none)

/-- The asks of the successful exchanges, in scan order. -/
def asksOf (ads : List Adapter) : List ℚ :=
  ads.filterMap (fun a => a.fetch.map Prod.fst)

/-- The bids of the successful exchanges, in scan order. -/
def bidsOf (ads : List Adapter) : List ℚ :=
  ads.filterMap (fun a => a.fetch.map Prod.snd)

/-- The running-minimum value `Buy`'s scan computes. -/
def buyBest (ads : List Adapter) : ℚ := (asksOf ads).foldl min buySentinel

/-- The running-maximum value `Sell`'s scan computes. -/
def sellBest (ads : List Adapter) : ℚ := (bidsOf ads).foldl max 0

/-- Keep an exchange's name exactly when it succeeded with ask `m`. -/
def buyKeep (m : ℚ) (a : Adapter) : Option String :=
  match a.fetch with
  | none => none
  | some pr => if pr.1 = m then some a.name else none

/-- Keep an exchange's name exactly when it succeeded with bid `m`. -/
def sellKeep (m : ℚ) (a : Adapter) : Option String :=
  match a.fetch with
  | none => none
  | some pr => if pr.2 = m then some a.name else none

/-- The names of the exchanges that succeeded with ask `m`, in scan order. -/
def buyWinners (m : ℚ) (ads : List Adapter) : List String :=
  ads.filterMap (buyKeep m)

/-- The names of the exchanges that succeeded with bid `m`, in scan order. -/
def sellWinners (m : ℚ) (ads : List Adapter) : List String :=
  ads.filterMap (sellKeep m)

/-- The outcome of one HTTP handler call, as far as the controller logic
decides it: the 400 rejection, the 500 error envelope, or the 200 result
envelope `(coin, amount, usdAmount, exchange)`. -/
inductive HandlerResult where
  | badRequest (body : String)
  | serverError (body : String)
  | success (coin : String) (amount usdAmount : ℚ) (exchange : List String)
deriving DecidableEq

/-- The shared tail of both handlers: a non-nil error from the service
becomes the 500 envelope carrying `err.Error()`; otherwise the 200
envelope carries the symbol, the requested amount, the computed USD
amount and the winning exchanges. -/
def renderOrder (symbol : String) (amount : ℚ)
    (r : ℚ × List String × Option String) : HandlerResult :=
  match r.2.2 with
  | some e => HandlerResult.serverError e
  | none => HandlerResult.success symbol amount r.1 r.2.1

/-- `OrderController.BuyHandler`. `amountParam` is the result of fiber's
`c.QueryFloat ("amount", 0)` before the default is applied: `none` when
the parameter is missing or unparseable (fiber then returns the default
`0`), `some a` when it parses to `a`. `symbolParam` models `c.Query
("symbol")`, which yields `""` when the parameter is missing. -/
def BuyHandler (ads : List Adapter) (amountParam : Option ℚ)
    (symbolParam : Option String) : HandlerResult :=
  let amount := amountParam.getD 0
  if amount = 0 then HandlerResult.badRequest "invalid amount"
  else
    let symbol := symbolParam.getD ""
    renderOrder symbol amount (Buy ads amount symbol)

/-- `OrderController.SellHandler`, identical to `BuyHandler` except that it
calls `Sell`. -/
def SellHandler (ads : List Adapter) (amountParam : Option ℚ)
    (symbolParam : Option String) : HandlerResult :=
  let amount := amountParam.getD 0
  if amount = 0 then HandlerResult.badRequest "invalid amount"
  else
    let symbol := symbolParam.getD ""
    renderOrder symbol amount (Sell ads amount symbol)

/-- One entry of the decoded Kraken `result` map: the `asks` and `bids`
arrays of arrays. Each innermost cell models the outcome of
`strconv.ParseFloat` on the entry's textual price: `some q` when the text
parses to `q`, `none` when parsing would fail. -/
structure ResultBlock where
  asks : List (List (Option ℚ))
  bids : List (List (Option ℚ))
deriving DecidableEq

/-- The decoded Kraken response: the application-level `error` array and
the `result` map, modelled as the list of its entries in iteration
order. -/
structure KrakenResponse where
  error : List String
  result : List (String × ResultBlock)
deriving DecidableEq

/-- The element `rows[0][0]`, or `none` when `len(rows) == 0` or
`len(rows[0]) == 0` — the two presence checks the Go code performs. -/
def firstCell : List (List (Option ℚ)) → Option (Option ℚ)
  | [] => none
  | row :: _ =>
    match row with
    | [] => none
    | c :: _ => some c

/-- The loop over the entries of the Kraken `result` map in
`KrakenExchange.GetPrices`: every entry must have a present and parseable
top-of-book bid and ask, and each entry overwrites the running `ask` and
`bid` values; the values surviving the loop are returned with a nil
error. -/
def krakenLoop : List (String × ResultBlock) → ℚ → ℚ → ℚ × ℚ × Option String
  | [], ask, bid => (ask, bid, none)
  | (_, r) :: rest, _, _ =>
    match firstCell r.bids with
    | none => (0, 0, some "Failed to find bid prices in kraken response")
    | some bidCell =>
      match firstCell r.asks with
      | none => (0, 0, some "Failed to find ask prices in kraken response")
      | some askCell =>
        match bidCell with
        | none => (0, 0, some "failed to parse bid price string from kraken response")
        | some b =>
          match askCell with
          | none => (0, 0, some "failed to parse ask price string from kraken response")
          | some a => krakenLoop rest a b

/-- The decision logic of `KrakenExchange.GetPrices` after the JSON
response has been decoded: a non-empty application-level `error` array is
a failure; otherwise the `result` map is scanned by `krakenLoop` starting
from the zero-initialised `var ask, bid float64`. -/
def KrakenGetPrices (resp : KrakenResponse) : ℚ × ℚ × Option String :=
  if resp.error.length ≠ 0 then
    (0, 0, some ("Kraken price fetch failed with errors: " ++
      String.intercalate ", " resp.error))
  else
    krakenLoop resp.result 0 0

/-! ### Facts about the running minimum and maximum -/

lemma foldl_min_le_init : ∀ (l : List ℚ) (b : ℚ), l.foldl min b ≤ b
  | [], _ => le_refl _
  | x :: t, b => le_trans (foldl_min_le_init t (min b x)) (min_le_left b x)

lemma foldl_min_le_mem (l : List ℚ) : ∀ (b x : ℚ), x ∈ l → l.foldl min b ≤ x := by
  induction l with
  | nil => intro b x h; cases h
  | cons a t ih =>
    intro b x h
    rcases List.mem_cons.mp h with rfl | h
    · exact le_trans (foldl_min_le_init t (min b x)) (min_le_right b x)
    · exact ih (min b a) x h

lemma foldl_min_eq_init_or_mem (l : List ℚ) :
    ∀ b : ℚ, l.foldl min b = b ∨ l.foldl min b ∈ l := by
  induction l with
  | nil => intro b; exact Or.inl rfl
  | cons a t ih =>
    intro b
    rcases ih (min b a) with h | h
    · rcases min_choice b a with hc | hc
      · exact Or.inl (by rw [List.foldl_cons, h, hc])
      · exact Or.inr (by rw [List.foldl_cons, h, hc]; exact List.mem_cons_self a t)
    · exact Or.inr (List.mem_cons_of_mem a h)

lemma init_le_foldl_max : ∀ (l : List ℚ) (b : ℚ), b ≤ l.foldl max b
  | [], _ => le_refl _
  | x :: t, b => le_trans (le_max_left b x) (init_le_foldl_max t (max b x))

lemma mem_le_foldl_max (l : List ℚ) : ∀ (b x : ℚ), x ∈ l → x ≤ l.foldl max b := by
  induction l with
  | nil => intro b x h; cases h
  | cons a t ih =>
    intro b x h
    rcases List.mem_cons.mp h with rfl | h
    · exact le_trans (le_max_right b x) (init_le_foldl_max t (max b x))
    · exact ih (max b a) x h

lemma foldl_max_eq_init_or_mem (l : List ℚ) :
    ∀ b : ℚ, l.foldl max b = b ∨ l.foldl max b ∈ l := by
  induction l with
  | nil => intro b; exact Or.inl rfl
  | cons a t ih =>
    intro b
    rcases ih (max b a) with h | h
    · rcases max_choice b a with hc | hc
      · exact Or.inl (by rw [List.foldl_cons, h, hc])
      · exact Or.inr (by rw [List.foldl_cons, h, hc]; exact List.mem_cons_self a t)
    · exact Or.inr (List.mem_cons_of_mem a h)

/-! ### Characterisation of the two scan loops

At every point of the scan the accumulated winner list is exactly the
names of the already-scanned successful exchanges whose winning-side price
equals the current best, so the final state is the fold of `min`/`max`
paired with the in-order filter at that value. -/

lemma buyLoop_eq (ads : List Adapter) : ∀ (b : ℚ) (ws : List String),
    buyLoop ads b ws =
      ((asksOf ads).foldl min b,
       (if (asksOf ads).foldl min b = b then ws else []) ++
         buyWinners ((asksOf ads).foldl min b) ads) := by
  induction ads with
  | nil => intro b ws; simp [buyLoop, asksOf, buyWinners]
  | cons a rest ih =>
    intro b ws
    cases hf : a.fetch with
    | none =>
      have ha : asksOf (a :: rest) = asksOf rest := by
        simp [asksOf, List.filterMap_cons, hf]
      have hw : ∀ m, buyWinners m (a :: rest) = buyWinners m rest := by
        intro m; simp [buyWinners, List.filterMap_cons, buyKeep, hf]
      simp only [buyLoop, hf, ha, hw]
      exact ih b ws
    | some pr =>
      have ha : asksOf (a :: rest) = pr.1 :: asksOf rest := by
        simp [asksOf, List.filterMap_cons, hf]
      have hw : ∀ m, buyWinners m (a :: rest) =
          (if m = pr.1 then [a.name] else []) ++ buyWinners m rest := by
        intro m
        by_cases h : m = pr.1
        · simp [buyWinners, List.filterMap_cons, buyKeep, hf, h]
        · simp [buyWinners, List.filterMap_cons, buyKeep, hf, h, Ne.symm h]
      rcases lt_trichotomy pr.1 b with h1 | h1 | h1
      · have hstep : buyLoop (a :: rest) b ws = buyLoop rest pr.1 [a.name] := by
          simp only [buyLoop, hf]; rw [if_pos h1]
        have hm : (asksOf (a :: rest)).foldl min b = (asksOf rest).foldl min pr.1 := by
          rw [ha, List.foldl_cons, min_eq_right h1.le]
        have hne : (asksOf rest).foldl min pr.1 ≠ b :=
          ne_of_lt (lt_of_le_of_lt (foldl_min_le_init _ _) h1)
        rw [hstep, ih pr.1 [a.name], hm, hw]
        simp [hne]
      · have hstep : buyLoop (a :: rest) b ws = buyLoop rest b (ws ++ [a.name]) := by
          simp only [buyLoop, hf]
          rw [if_neg (by rw [h1]; exact lt_irrefl b), if_pos h1]
        have hm : (asksOf (a :: rest)).foldl min b = (asksOf rest).foldl min b := by
          rw [ha, List.foldl_cons, h1, min_self]
        rw [hstep, ih b (ws ++ [a.name]), hm, hw]
        by_cases h2 : (asksOf rest).foldl min b = b
        · simp [h2, h1]
        · simp [h2, h1]
      · have hstep : buyLoop (a :: rest) b ws = buyLoop rest b ws := by
          simp only [buyLoop, hf]
          rw [if_neg (asymm h1), if_neg (ne_of_gt h1)]
        have hm : (asksOf (a :: rest)).foldl min b = (asksOf rest).foldl min b := by
          rw [ha, List.foldl_cons, min_eq_left h1.le]
        have hne : (asksOf rest).foldl min b ≠ pr.1 :=
          ne_of_lt (lt_of_le_of_lt (foldl_min_le_init _ _) h1)
        rw [hstep, ih b ws, hm, hw]
        simp [hne]

lemma sellLoop_eq (ads : List Adapter) : ∀ (b : ℚ) (ws : List String),
    sellLoop ads b ws =
      ((bidsOf ads).foldl max b,
       (if (bidsOf ads).foldl max b = b then ws else []) ++
         sellWinners ((bidsOf ads).foldl max b) ads) := by
  induction ads with
  | nil => intro b ws; simp [sellLoop, bidsOf, sellWinners]
  | cons a rest ih =>
    intro b ws
    cases hf : a.fetch with
    | none =>
      have ha : bidsOf (a :: rest) = bidsOf rest := by
        simp [bidsOf, List.filterMap_cons, hf]
      have hw : ∀ m, sellWinners m (a :: rest) = sellWinners m rest := by
        intro m; simp [sellWinners, List.filterMap_cons, sellKeep, hf]
      simp only [sellLoop, hf, ha, hw]
      exact ih b ws
    | some pr =>
      have ha : bidsOf (a :: rest) = pr.2 :: bidsOf rest := by
        simp [bidsOf, List.filterMap_cons, hf]
      have hw : ∀ m, sellWinners m (a :: rest) =
          (if m = pr.2 then [a.name] else []) ++ sellWinners m rest := by
        intro m
        by_cases h : m = pr.2
        · simp [sellWinners, List.filterMap_cons, sellKeep, hf, h]
        · simp [sellWinners, List.filterMap_cons, sellKeep, hf, h, Ne.symm h]
      rcases lt_trichotomy b pr.2 with h1 | h1 | h1
      · have hstep : sellLoop (a :: rest) b ws = sellLoop rest pr.2 [a.name] := by
          simp only [sellLoop, hf]; rw [if_pos h1]
        have hm : (bidsOf (a :: rest)).foldl max b = (bidsOf rest).foldl max pr.2 := by
          rw [ha, List.foldl_cons, max_eq_right h1.le]
        have hne : (bidsOf rest).foldl max pr.2 ≠ b :=
          ne_of_gt (lt_of_lt_of_le h1 (init_le_foldl_max _ _))
        rw [hstep, ih pr.2 [a.name], hm, hw]
        simp [hne]
      · have hstep : sellLoop (a :: rest) b ws = sellLoop rest b (ws ++ [a.name]) := by
          simp only [sellLoop, hf]
          rw [if_neg (by rw [h1]; exact lt_irrefl pr.2), if_pos h1.symm]
        have hm : (bidsOf (a :: rest)).foldl max b = (bidsOf rest).foldl max b := by
          rw [ha, List.foldl_cons, ← h1, max_self]
        rw [hstep, ih b (ws ++ [a.name]), hm, hw]
        by_cases h2 : (bidsOf rest).foldl max b = b
        · simp [h2, h1.symm]
        · simp [h2, h1.symm]
      · have hstep : sellLoop (a :: rest) b ws = sellLoop rest b ws := by
          simp only [sellLoop, hf]
          rw [if_neg (asymm h1), if_neg (ne_of_lt h1)]
        have hm : (bidsOf (a :: rest)).foldl max b = (bidsOf rest).foldl max b := by
          rw [ha, List.foldl_cons, max_eq_left h1.le]
        have hne : (bidsOf rest).foldl max b ≠ pr.2 :=
          ne_of_gt (lt_of_lt_of_le h1 (init_le_foldl_max _ _))
        rw [hstep, ih b ws, hm, hw]
        simp [hne]

/-- `Buy`, rewritten through the loop characterisation. -/
lemma Buy_eq (ads : List Adapter) (amount : ℚ) (symbol : String) :
    Buy ads amount symbol =
      if buyBest ads = buySentinel then
        (0, [], some ("failed to find best price for " ++ symbol))
      else (amount * buyBest ads, buyWinners (buyBest ads) ads, none) := by
  unfold Buy buyBest
  rw [buyLoop_eq]
  by_cases h : (asksOf ads).foldl min buySentinel = buySentinel <;> simp [h]

/-- `Sell`, rewritten through the loop characterisation. -/
lemma Sell_eq (ads : List Adapter) (amount : ℚ) (symbol : String) :
    Sell ads amount symbol =
      if sellBest ads = 0 then
        (0, [], some ("failed to find best price for " ++ symbol))
      else (amount * sellBest ads, sellWinners (sellBest ads) ads, none) := by
  unfold Sell sellBest
  rw [sellLoop_eq]
  by_cases h : (bidsOf ads).foldl max 0 = 0 <;> simp [h]

lemma mem_asksOf {ads : List Adapter} {q : ℚ} :
    q ∈ asksOf ads ↔ ∃ a ∈ ads, ∃ bd, a.fetch = some (q, bd) := by
  simp only [asksOf, List.mem_filterMap]
  constructor
  · rintro ⟨a, ha, hq⟩
    rcases hx : a.fetch with _ | ⟨ask, bd⟩ <;> rw [hx] at hq
    · simp at hq
    · simp at hq
      exact ⟨a, ha, bd, by rw [hx, hq]⟩
  · rintro ⟨a, ha, bd, hx⟩
    exact ⟨a, ha, by rw [hx]; rfl⟩

lemma mem_bidsOf {ads : List Adapter} {q : ℚ} :
    q ∈ bidsOf ads ↔ ∃ a ∈ ads, ∃ ak, a.fetch = some (ak, q) := by
  simp only [bidsOf, List.mem_filterMap]
  constructor
  · rintro ⟨a, ha, hq⟩
    rcases hx : a.fetch with _ | ⟨ak, bd⟩ <;> rw [hx] at hq
    · simp at hq
    · simp at hq
      exact ⟨a, ha, ak, by rw [hx, hq]⟩
  · rintro ⟨a, ha, ak, hx⟩
    exact ⟨a, ha, by rw [hx]; rfl⟩

lemma mem_buyWinners {m : ℚ} {ads : List Adapter} {n : String} :
    n ∈ buyWinners m ads ↔ ∃ a ∈ ads, a.name = n ∧ ∃ bd, a.fetch = some (m, bd) := by
  simp only [buyWinners, List.mem_filterMap, buyKeep]
  constructor
  · rintro ⟨a, ha, hk⟩
    rcases hx : a.fetch with _ | ⟨ask, bd⟩ <;> rw [hx] at hk
    · simp at hk
    · simp only at hk
      by_cases he : ask = m
      · rw [if_pos he] at hk
        exact ⟨a, ha, Option.some.inj hk, bd, by rw [hx, he]⟩
      · rw [if_neg he] at hk
        cases hk
  · rintro ⟨a, ha, hn, bd, hx⟩
    exact ⟨a, ha, by rw [hx]; simp [hn]⟩

lemma mem_sellWinners {m : ℚ} {ads : List Adapter} {n : String} :
    n ∈ sellWinners m ads ↔ ∃ a ∈ ads, a.name = n ∧ ∃ ak, a.fetch = some (ak, m) := by
  simp only [sellWinners, List.mem_filterMap, sellKeep]
  constructor
  · rintro ⟨a, ha, hk⟩
    rcases hx : a.fetch with _ | ⟨ak, bd⟩ <;> rw [hx] at hk
    · simp at hk
    · simp only at hk
      by_cases he : bd = m
      · rw [if_pos he] at hk
        exact ⟨a, ha, Option.some.inj hk, ak, by rw [hx, he]⟩
      · rw [if_neg he] at hk
        cases hk
  · rintro ⟨a, ha, hn, ak, hx⟩
    exact ⟨a, ha, by rw [hx]; simp [hn]⟩

lemma renderOrder_ne_badRequest (symbol : String) (amount : ℚ)
    (r : ℚ × List String × Option String) (body : String) :
    renderOrder symbol amount r ≠ HandlerResult.badRequest body := by
  cases h : r.2.2 <;> simp [renderOrder, h]

/-! ### The claims -/

/-- C1 (amended): provided at least one successful ask lies below the
`1e18` sentinel and at least one successful bid is positive, `Buy`
selects the minimum ask among the successes and `Sell` the maximum bid;
the winning price and the winner set are invariant under any permutation
of the adapter list, while each winners list itself follows its own
input adapter order (it is the in-order filter of the ties). -/
theorem best_price_selection_perm (ads ads' : List Adapter) (amount : ℚ)
    (symbol : String) (hp : ads.Perm ads')
    (hbuy : ∃ q ∈ asksOf ads, q < buySentinel)
    (hsell : ∃ q ∈ bidsOf ads, 0 < q) :
    (∃ m, m ∈ asksOf ads ∧ (∀ q ∈ asksOf ads, m ≤ q) ∧
      Buy ads amount symbol = (amount * m, buyWinners m ads, none) ∧
      Buy ads' amount symbol = (amount * m, buyWinners m ads', none) ∧
      (buyWinners m ads).Perm (buyWinners m ads')) ∧
    (∃ m, m ∈ bidsOf ads ∧ (∀ q ∈ bidsOf ads, q ≤ m) ∧
      Sell ads amount symbol = (amount * m, sellWinners m ads, none) ∧
      Sell ads' amount symbol = (amount * m, sellWinners m ads', none) ∧
      (sellWinners m ads).Perm (sellWinners m ads')) := by
  have hasks : (asksOf ads).Perm (asksOf ads') := by
    unfold asksOf
    exact hp.filterMap _
  have hbids : (bidsOf ads).Perm (bidsOf ads') := by
    unfold bidsOf
    exact hp.filterMap _
  constructor
  · obtain ⟨q, hq, hqlt⟩ := hbuy
    have hne : buyBest ads ≠ buySentinel :=
      ne_of_lt (lt_of_le_of_lt (foldl_min_le_mem _ _ _ hq) hqlt)
    have hmem : buyBest ads ∈ asksOf ads := by
      rcases foldl_min_eq_init_or_mem (asksOf ads) buySentinel with h | h
      · exact absurd h hne
      · exact h
    have hsame : buyBest ads' = buyBest ads :=
      (hasks.foldl_eq buySentinel).symm
    refine ⟨buyBest ads, hmem, fun q hq => foldl_min_le_mem _ _ _ hq, ?_, ?_, ?_⟩
    · rw [Buy_eq, if_neg hne]
    · rw [Buy_eq, if_neg (hsame ▸ hne), hsame]
    · unfold buyWinners
      exact hp.filterMap _
  · obtain ⟨q, hq, hqpos⟩ := hsell
    have hne : sellBest ads ≠ 0 :=
      ne_of_gt (lt_of_lt_of_le hqpos (mem_le_foldl_max _ _ _ hq))
    have hmem : sellBest ads ∈ bidsOf ads := by
      rcases foldl_max_eq_init_or_mem (bidsOf ads) 0 with h | h
      · exact absurd h hne
      · exact h
    have hsame : sellBest ads' = sellBest ads :=
      (hbids.foldl_eq 0).symm
    refine ⟨sellBest ads, hmem, fun q hq => mem_le_foldl_max _ _ _ hq, ?_, ?_, ?_⟩
    · rw [Sell_eq, if_neg hne]
    · rw [Sell_eq, if_neg (hsame ▸ hne), hsame]
    · unfold sellWinners
      exact hp.filterMap _

/-- C1 witness: two successful adapters, `coinbase` with ask 2 / bid 3
and `kraken` with ask 1 / bid 4, against their swap. -/
theorem best_price_selection_perm_witness :
    (∃ m, m ∈ asksOf [⟨"coinbase", some (2, 3)⟩, ⟨"kraken", some (1, 4)⟩] ∧
      (∀ q ∈ asksOf [⟨"coinbase", some (2, 3)⟩, ⟨"kraken", some (1, 4)⟩], m ≤ q) ∧
      Buy [⟨"coinbase", some (2, 3)⟩, ⟨"kraken", some (1, 4)⟩] 1 "BTC" =
        (1 * m, buyWinners m [⟨"coinbase", some (2, 3)⟩, ⟨"kraken", some (1, 4)⟩], none) ∧
      Buy [⟨"kraken", some (1, 4)⟩, ⟨"coinbase", some (2, 3)⟩] 1 "BTC" =
        (1 * m, buyWinners m [⟨"kraken", some (1, 4)⟩, ⟨"coinbase", some (2, 3)⟩], none) ∧
      (buyWinners m [⟨"coinbase", some (2, 3)⟩, ⟨"kraken", some (1, 4)⟩]).Perm
        (buyWinners m [⟨"kraken", some (1, 4)⟩, ⟨"coinbase", some (2, 3)⟩])) ∧
    (∃ m, m ∈ bidsOf [⟨"coinbase", some (2, 3)⟩, ⟨"kraken", some (1, 4)⟩] ∧
      (∀ q ∈ bidsOf [⟨"coinbase", some (2, 3)⟩, ⟨"kraken", some (1, 4)⟩], q ≤ m) ∧
      Sell [⟨"coinbase", some (2, 3)⟩, ⟨"kraken", some (1, 4)⟩] 1 "BTC" =
        (1 * m, sellWinners m [⟨"coinbase", some (2, 3)⟩, ⟨"kraken", some (1, 4)⟩], none) ∧
      Sell [⟨"kraken", some (1, 4)⟩, ⟨"coinbase", some (2, 3)⟩] 1 "BTC" =
        (1 * m, sellWinners m [⟨"kraken", some (1, 4)⟩, ⟨"coinbase", some (2, 3)⟩], none) ∧
      (sellWinners m [⟨"coinbase", some (2, 3)⟩, ⟨"kraken", some (1, 4)⟩]).Perm
        (sellWinners m [⟨"kraken", some (1, 4)⟩, ⟨"coinbase", some (2, 3)⟩])) :=
  best_price_selection_perm
    [⟨"coinbase", some (2, 3)⟩, ⟨"kraken", some (1, 4)⟩]
    [⟨"kraken", some (1, 4)⟩, ⟨"coinbase", some (2, 3)⟩] 1 "BTC"
    (List.Perm.swap _ _ _)
    ⟨1, by rw [show asksOf [⟨"coinbase", some (2, 3)⟩, ⟨"kraken", some (1, 4)⟩] =
        [2, 1] from rfl]; simp, by norm_num [buySentinel]⟩
    ⟨3, by rw [show bidsOf [⟨"coinbase", some (2, 3)⟩, ⟨"kraken", some (1, 4)⟩] =
        [3, 4] from rfl]; simp, by norm_num⟩

/-- C1 counterexample: a single successful adapter reporting bid exactly
`0` is a successful adapter whose maximum bid is `0`, yet `Sell` returns
the no-price failure instead of an execution result carrying that
maximum bid, so the claim fails for this multiset of adapter results. -/
theorem best_price_selection_counterexample :
    bidsOf [⟨"coinbase", some (1, 0)⟩] = [0] ∧
    Sell [⟨"coinbase", some (1, 0)⟩] 1 "BTC" =
      (0, [], some "failed to find best price for BTC") := by
  refine ⟨rfl, ?_⟩
  norm_num [Sell, sellLoop]
  rfl

/-- C2: when every adapter's fetch fails, both `Buy` and `Sell` return
the no-price failure carrying the requested symbol, with zero amount,
an empty winner list and no execution result. -/
theorem all_fail_no_execution_result (ads : List Adapter) (amount : ℚ)
    (symbol : String) (h : ∀ a ∈ ads, a.fetch = none) :
    Buy ads amount symbol =
      (0, [], some ("failed to find best price for " ++ symbol)) ∧
    Sell ads amount symbol =
      (0, [], some ("failed to find best price for " ++ symbol)) := by
  have hasks : asksOf ads = [] :=
    List.filterMap_eq_nil_iff.mpr (fun a ha => by rw [h a ha]; rfl)
  have hbids : bidsOf ads = [] :=
    List.filterMap_eq_nil_iff.mpr (fun a ha => by rw [h a ha]; rfl)
  constructor
  · rw [Buy_eq, if_pos (by rw [buyBest, hasks]; rfl)]
  · rw [Sell_eq, if_pos (by rw [sellBest, hbids]; rfl)]

/-- C2 witness: both configured exchanges fail. -/
theorem all_fail_no_execution_result_witness :
    Buy [⟨"coinbase", none⟩, ⟨"kraken", none⟩] 1 "BTC" =
      (0, [], some ("failed to find best price for " ++ "BTC")) ∧
    Sell [⟨"coinbase", none⟩, ⟨"kraken", none⟩] 1 "BTC" =
      (0, [], some ("failed to find best price for " ++ "BTC")) :=
  all_fail_no_execution_result _ 1 "BTC" (by
    intro a ha
    rcases List.mem_cons.mp ha with rfl | ha
    · rfl
    · rcases List.mem_cons.mp ha with rfl | ha
      · rfl
      · cases ha)

/-- C3: whenever `Buy` or `Sell` returns an execution result, the winner
list is exactly the in-order filter of the adapters whose winning-side
price (ask for `Buy`, bid for `Sell`) equals the winning best price:
each tied adapter appears exactly once, in adapter-iteration order, none
omitted, none duplicated, and no secondary tie-break is applied. -/
theorem winners_are_exact_ties (ads : List Adapter) (amount : ℚ)
    (symbol : String) :
    (∀ usd ws, Buy ads amount symbol = (usd, ws, none) →
      ws = buyWinners (buyBest ads) ads) ∧
    (∀ usd ws, Sell ads amount symbol = (usd, ws, none) →
      ws = sellWinners (sellBest ads) ads) := by
  constructor
  · intro usd ws h
    rw [Buy_eq] at h
    by_cases hb : buyBest ads = buySentinel
    · rw [if_pos hb] at h
      exact Option.noConfusion (congrArg (fun p => p.2.2) h)
    · rw [if_neg hb] at h
      exact (congrArg (fun p => p.2.1) h).symm
  · intro usd ws h
    rw [Sell_eq] at h
    by_cases hb : sellBest ads = 0
    · rw [if_pos hb] at h
      exact Option.noConfusion (congrArg (fun p => p.2.2) h)
    · rw [if_neg hb] at h
      exact (congrArg (fun p => p.2.1) h).symm

/-- C3 witness: a two-way exact tie on the buy side, reported in adapter
order. -/
theorem winners_are_exact_ties_witness :
    (["coinbase", "kraken"] : List String) =
      buyWinners
        (buyBest [⟨"coinbase", some (10000, 1)⟩, ⟨"kraken", some (10000, 2)⟩])
        [⟨"coinbase", some (10000, 1)⟩, ⟨"kraken", some (10000, 2)⟩] :=
  (winners_are_exact_ties
      [⟨"coinbase", some (10000, 1)⟩, ⟨"kraken", some (10000, 2)⟩] 1 "BTC").1
    10000 ["coinbase", "kraken"]
    (by norm_num [Buy, buyLoop, buySentinel])

/-- C4: every execution result has at least one winner, and every winner
is the name of an adapter that reported exactly the winning price on the
winning side. -/
theorem winners_nonempty_and_attained (ads : List Adapter) (amount : ℚ)
    (symbol : String) :
    (∀ usd ws, Buy ads amount symbol = (usd, ws, none) →
      ws ≠ [] ∧ ∃ m, usd = amount * m ∧
        ∀ n ∈ ws, ∃ a ∈ ads, a.name = n ∧ ∃ bd, a.fetch = some (m, bd)) ∧
    (∀ usd ws, Sell ads amount symbol = (usd, ws, none) →
      ws ≠ [] ∧ ∃ m, usd = amount * m ∧
        ∀ n ∈ ws, ∃ a ∈ ads, a.name = n ∧ ∃ ak, a.fetch = some (ak, m)) := by
  constructor
  · intro usd ws h
    rw [Buy_eq] at h
    by_cases hb : buyBest ads = buySentinel
    · rw [if_pos hb] at h
      exact Option.noConfusion (congrArg (fun p => p.2.2) h)
    · rw [if_neg hb] at h
      have h1 : amount * buyBest ads = usd := congrArg Prod.fst h
      have h2 : buyWinners (buyBest ads) ads = ws := congrArg (fun p => p.2.1) h
      have hmem : buyBest ads ∈ asksOf ads := by
        rcases foldl_min_eq_init_or_mem (asksOf ads) buySentinel with hx | hx
        · exact absurd hx hb
        · exact hx
      obtain ⟨a, ha, bd, hfa⟩ := mem_asksOf.mp hmem
      have hwa : a.name ∈ buyWinners (buyBest ads) ads :=
        mem_buyWinners.mpr ⟨a, ha, rfl, bd, hfa⟩
      refine ⟨?_, buyBest ads, h1.symm, ?_⟩
      · rw [← h2]
        exact List.ne_nil_of_mem hwa
      · intro n hn
        rw [← h2] at hn
        exact mem_buyWinners.mp hn
  · intro usd ws h
    rw [Sell_eq] at h
    by_cases hb : sellBest ads = 0
    · rw [if_pos hb] at h
      exact Option.noConfusion (congrArg (fun p => p.2.2) h)
    · rw [if_neg hb] at h
      have h1 : amount * sellBest ads = usd := congrArg Prod.fst h
      have h2 : sellWinners (sellBest ads) ads = ws := congrArg (fun p => p.2.1) h
      have hmem : sellBest ads ∈ bidsOf ads := by
        rcases foldl_max_eq_init_or_mem (bidsOf ads) 0 with hx | hx
        · exact absurd hx hb
        · exact hx
      obtain ⟨a, ha, ak, hfa⟩ := mem_bidsOf.mp hmem
      have hwa : a.name ∈ sellWinners (sellBest ads) ads :=
        mem_sellWinners.mpr ⟨a, ha, rfl, ak, hfa⟩
      refine ⟨?_, sellBest ads, h1.symm, ?_⟩
      · rw [← h2]
        exact List.ne_nil_of_mem hwa
      · intro n hn
        rw [← h2] at hn
        exact mem_sellWinners.mp hn

/-- C4 witness: a single successful adapter on the buy side. -/
theorem winners_nonempty_and_attained_witness :
    (["coinbase"] : List String) ≠ [] ∧ ∃ m, (10 : ℚ) = 1 * m ∧
      ∀ n ∈ (["coinbase"] : List String),
        ∃ a ∈ [(⟨"coinbase", some (10, 20)⟩ : Adapter)], a.name = n ∧
          ∃ bd, a.fetch = some (m, bd) :=
  (winners_nonempty_and_attained [⟨"coinbase", some (10, 20)⟩] 1 "BTC").1
    10 ["coinbase"] (by norm_num [Buy, buyLoop, buySentinel])

/-- C5 (amended): when the best price is still the sentinel after the
scan, the failure message is `failed to find best price for <symbol>`
with the requested symbol substituted (the spec's wording `no price
available for <symbol>` does not match the code's message). -/
theorem sentinel_failure_message (ads : List Adapter) (amount : ℚ)
    (symbol : String) :
    (buyBest ads = buySentinel →
      Buy ads amount symbol =
        (0, [], some ("failed to find best price for " ++ symbol))) ∧
    (sellBest ads = 0 →
      Sell ads amount symbol =
        (0, [], some ("failed to find best price for " ++ symbol))) := by
  constructor
  · intro h
    rw [Buy_eq, if_pos h]
  · intro h
    rw [Sell_eq, if_pos h]

/-- C5 witness: the sentinel survives a scan of one failing adapter. -/
theorem sentinel_failure_message_witness :
    Buy [⟨"coinbase", none⟩] 1 "ETH" =
      (0, [], some ("failed to find best price for " ++ "ETH")) :=
  (sentinel_failure_message [⟨"coinbase", none⟩] 1 "ETH").1 rfl

/-- C5 counterexample: with every adapter failed, the surfaced message is
`failed to find best price for BTC`, which is not the claimed
`no price available for BTC`. -/
theorem sentinel_failure_message_counterexample :
    Buy ([] : List Adapter) 1 "BTC" =
      (0, [], some "failed to find best price for BTC") ∧
    (("failed to find best price for BTC" : String) ==
      "no price available for BTC") = false := by
  constructor
  · norm_num [Buy, buyLoop, buySentinel]
    rfl
  · rfl

/-- C6: the claim (an adapter that cannot determine both prices fails
rather than returning placeholders) is the spec's and the adapter's own
intent, but the Kraken decision logic violates it: on a decoded response
with no application-level errors and an empty `result` map, the loop body
never runs and the zero-initialised placeholder prices are returned with
a nil error — a success carrying `0`/`0`. -/
theorem kraken_empty_result_placeholder_success :
    KrakenGetPrices ⟨[], []⟩ = (0, 0, none) := rfl

/-- C7 counterexample: a request with amount `-1` and no symbol parameter
is not rejected by the boundary layer: the Selector is invoked with the
non-positive amount `-1` and the empty symbol, and even produces an
executed order. -/
theorem boundary_validation_counterexample :
    BuyHandler [⟨"coinbase", some (100, 100)⟩] (some (-1)) none =
      HandlerResult.success "" (-1) (-100) ["coinbase"] := by
  norm_num [BuyHandler, renderOrder, Buy, buyLoop, buySentinel]

/-- C7 (amended): the boundary layer rejects a request only when the
parsed amount is `0` (which is also fiber's default for a missing or
unparseable parameter); a negative amount and a missing symbol are not
rejected — `Buy` and `Sell` are invoked with them. -/
theorem boundary_amount_check_only_zero (ads : List Adapter) (a : ℚ)
    (h : a < 0) (sp : Option String) :
    BuyHandler ads (some a) sp =
      renderOrder (sp.getD "") a (Buy ads a (sp.getD "")) ∧
    SellHandler ads (some a) sp =
      renderOrder (sp.getD "") a (Sell ads a (sp.getD "")) ∧
    BuyHandler ads none sp = HandlerResult.badRequest "invalid amount" ∧
    SellHandler ads none sp = HandlerResult.badRequest "invalid amount" := by
  have hne : a ≠ 0 := ne_of_lt h
  refine ⟨?_, ?_, ?_, ?_⟩ <;> simp [BuyHandler, SellHandler, hne]

/-- C7 witness: amount `-1`, missing symbol. -/
theorem boundary_amount_check_only_zero_witness :
    BuyHandler [] (some (-1)) none =
      renderOrder "" (-1) (Buy [] (-1) "") ∧
    SellHandler [] (some (-1)) none =
      renderOrder "" (-1) (Sell [] (-1) "") ∧
    BuyHandler ([] : List Adapter) none none =
      HandlerResult.badRequest "invalid amount" ∧
    SellHandler ([] : List Adapter) none none =
      HandlerResult.badRequest "invalid amount" :=
  boundary_amount_check_only_zero [] (-1) (by norm_num) none

/-- C8: scenario C — sell, amount `0.5`, coinbase bid 9900 and kraken bid
10000, in that order: the result amount is 5000 and the winners are
exactly `kraken`. -/
theorem scenario_c_sell_fractional :
    Sell [⟨"coinbase", some (9900, 9900)⟩, ⟨"kraken", some (10000, 10000)⟩]
      (1 / 2) "BTC" = (5000, ["kraken"], none) := by
  norm_num [Sell, sellLoop]

/-- C9: the handlers answer 400 with body `invalid amount` exactly when
the amount parameter is missing or unparseable (fiber's `QueryFloat`
then yields the default `0`) or parses to `0`; every other parsed value,
negative amounts included, is passed to the service unchanged, and the
symbol parameter is never validated — it defaults to `""` and is passed
through whatever it is. -/
theorem handler_amount_validation (ads : List Adapter) (ap : Option ℚ)
    (sp : Option String) :
    (BuyHandler ads ap sp = HandlerResult.badRequest "invalid amount" ↔
      ap = none ∨ ap = some 0) ∧
    (SellHandler ads ap sp = HandlerResult.badRequest "invalid amount" ↔
      ap = none ∨ ap = some 0) ∧
    (∀ a, ap = some a → a ≠ 0 →
      BuyHandler ads ap sp =
        renderOrder (sp.getD "") a (Buy ads a (sp.getD "")) ∧
      SellHandler ads ap sp =
        renderOrder (sp.getD "") a (Sell ads a (sp.getD ""))) := by
  refine ⟨?_, ?_, ?_⟩
  · cases ap with
    | none => simp [BuyHandler]
    | some a =>
      by_cases h : a = 0
      · simp [BuyHandler, h]
      · simp [BuyHandler, h, renderOrder_ne_badRequest]
  · cases ap with
    | none => simp [SellHandler]
    | some a =>
      by_cases h : a = 0
      · simp [SellHandler, h]
      · simp [SellHandler, h, renderOrder_ne_badRequest]
  · intro a ha hne
    subst ha
    constructor <;> simp [BuyHandler, SellHandler, hne]

/-- C9 witness: amount `1`, symbol `BTC`, no adapters. -/
theorem handler_amount_validation_witness :
    BuyHandler [] (some 1) (some "BTC") =
      renderOrder "BTC" 1 (Buy [] 1 "BTC") ∧
    SellHandler [] (some 1) (some "BTC") =
      renderOrder "BTC" 1 (Sell [] 1 "BTC") :=
  (handler_amount_validation [] (some 1) (some "BTC")).2.2 1 rfl (by norm_num)

/-- C10: a successful adapter reporting bid exactly `0` can never yield a
sell execution result on its own: if every adapter fails or reports bid
`0`, `Sell` returns the no-price failure even though some adapters
succeeded, and any returned execution result's winning price is
nonzero. -/
theorem sell_zero_bid_never_wins (ads : List Adapter) (amount : ℚ)
    (symbol : String) :
    ((∀ a ∈ ads, a.fetch = none ∨ ∃ ak, a.fetch = some (ak, 0)) →
      Sell ads amount symbol =
        (0, [], some ("failed to find best price for " ++ symbol))) ∧
    (∀ usd ws, Sell ads amount symbol = (usd, ws, none) →
      sellBest ads ≠ 0 ∧ usd = amount * sellBest ads) := by
  constructor
  · intro h
    have hz : sellBest ads = 0 := by
      rcases foldl_max_eq_init_or_mem (bidsOf ads) 0 with hx | hx
      · exact hx
      · obtain ⟨a, ha, ak, hfa⟩ := mem_bidsOf.mp hx
        rcases h a ha with hn | ⟨ak', hfa'⟩
        · rw [hn] at hfa
          cases hfa
        · rw [hfa'] at hfa
          have h0 : (0 : ℚ) = List.foldl max 0 (bidsOf ads) :=
            congrArg (fun o => (o.getD (0, 0)).2) hfa
          exact h0.symm
    rw [Sell_eq, if_pos hz]
  · intro usd ws h
    rw [Sell_eq] at h
    by_cases hb : sellBest ads = 0
    · rw [if_pos hb] at h
      exact Option.noConfusion (congrArg (fun p => p.2.2) h)
    · rw [if_neg hb] at h
      exact ⟨hb, (congrArg Prod.fst h).symm⟩

/-- C10 witness: one adapter succeeds with bid `0`, the other fails. -/
theorem sell_zero_bid_never_wins_witness :
    Sell [⟨"coinbase", some (1, 0)⟩, ⟨"kraken", none⟩] 2 "BTC" =
      (0, [], some ("failed to find best price for " ++ "BTC")) :=
  (sell_zero_bid_never_wins [⟨"coinbase", some (1, 0)⟩, ⟨"kraken", none⟩]
      2 "BTC").1 (by
    intro a ha
    rcases List.mem_cons.mp ha with rfl | ha
    · exact Or.inr ⟨1, rfl⟩
    · rcases List.mem_cons.mp ha with rfl | ha
      · exact Or.inl rfl
      · cases ha)

end Triumph
